import Mathlib

/-!
# Revision tracker backend: the spaced-repetition scheduling of `src/index.js`

The development embeds the three scheduling routes of `src/index.js`

* `POST /api/update-status` (lines 90-151),
* `GET /api/due-today` (lines 153-187),
* `GET /api/overdue` (lines 189-217),

as pure functions of the fetched rows and of the clock reading, and proves the
properties of the specification about them.

Modelling conventions.

* A row is the array of cells that `spreadsheets.values.get` returns: a list of
  strings (formatted values), short when trailing cells are empty.  `row[i]` is
  `cell row i`; `none` stands for `undefined`.
* A JavaScript number that can be `NaN` is an `Option Int`, `none` being `NaN`.
  The numbers that occur are integers; a magnitude too large for a double only
  occurs under `Math.min(_, 4)`, where its exact value does not matter.
* A `Date` is its time value, milliseconds since the Unix epoch; an invalid
  `Date` is `none`.  `new Date()` is the parameter `now : Nat`, the reading of
  the system clock.
* The local time zone of the process is a `TimeZone`: the offset from UTC in
  force at each instant, and the offset by which each local time is read, so
  that daylight-saving transitions are part of the model.
* An operation that throws (and is answered with status 500, nothing being
  written) returns `none`.
* `Math.floor(x / 86400000)` on an integer `x` below `2^53` is the exact floor,
  so it is integer floor division.
-/

namespace RevisionTracker

/-! ## Dates of ECMAScript -/

/-- Milliseconds per day. -/
def msPerDay : Int := 86400000

/-- The day number of a time value: `floor(t / msPerDay)`. -/
def Day (t : Int) : Int := t / msPerDay

/-- The milliseconds of a time value within its day. -/
def TimeWithinDay (t : Int) : Int := t % msPerDay

/-- The number of the day `y-m-d` of the proleptic Gregorian calendar, counted
from 1970-01-01; `m` is 1-based.  Years are counted from 1 March, in eras of
400 years (146097 days). -/
def daysFromCivil (y m d : Int) : Int :=
  let y1 := if m ≤ 2 then y - 1 else y
  let era := y1 / 400
  let yoe := y1 - era * 400
  let mp := if m > 2 then m - 3 else m + 9
  let doy := (153 * mp + 2) / 5 + d - 1
  let doe := yoe * 365 + yoe / 4 - yoe / 100 + doy
  era * 146097 + doe - 719468

/-- The calendar date `(year, month, day)` of a day number, month 1-based: the
inverse of `daysFromCivil`.  Within an era a day falls in a century of 36524
days (the fourth has one more), a group of four years of 1461 days and a year
of 365 days (the fourth has one more). -/
def civilFromDays (z : Int) : Int × Int × Int :=
  let z1 := z + 719468
  let era := z1 / 146097
  let doe := z1 - era * 146097
  let c := min (doe / 36524) 3
  let n1 := doe - 36524 * c
  let q := n1 / 1461
  let n2 := n1 - 1461 * q
  let yr := min (n2 / 365) 3
  let doy := n2 - 365 * yr
  let yoe := 100 * c + 4 * q + yr
  let mp := (5 * doy + 2) / 153
  let d := doy - (153 * mp + 2) / 5 + 1
  let m := if mp < 10 then mp + 3 else mp - 9
  (if m ≤ 2 then yoe + era * 400 + 1 else yoe + era * 400, m, d)

/-- The year of a time value. -/
def YearFromTime (t : Int) : Int := (civilFromDays (Day t)).1

/-- The month of a time value, 0-based as in ECMAScript. -/
def MonthFromTime (t : Int) : Int := (civilFromDays (Day t)).2.1 - 1

/-- The day of the month of a time value. -/
def DateFromTime (t : Int) : Int := (civilFromDays (Day t)).2.2

/-- The day number of the first of month `month` (0-based, any integer: whole
years are carried into `year`) plus `date - 1`; `date` need not lie in the
month. -/
def MakeDay (year month date : Int) : Int :=
  daysFromCivil (year + month / 12) (month % 12 + 1) 1 + date - 1

/-- The time value of a day number and a time within the day. -/
def MakeDate (day time : Int) : Int := day * msPerDay + time

/-- The largest magnitude of a time value. -/
def maxTime : Int := 8640000000000000

/-- A time value out of range is `NaN`. -/
def TimeClip (t : Int) : Option Int :=
  if -maxTime ≤ t ∧ t ≤ maxTime then some t else none

/-- The time zone of the process.  `offsetAt t` is the offset from UTC, in
milliseconds, in force at the time value `t` (`LocalTZA(t, true)`);
`offsetOfLocal t` is the offset by which the local time value `t` is read
(`LocalTZA(t, false)`: a local time skipped or repeated at a transition is read
with the offset before the transition). -/
structure TimeZone where
  /-- The offset in force at a UTC time value. -/
  offsetAt : Int → Int
  /-- The offset by which a local time value is read. -/
  offsetOfLocal : Int → Int

/-- A zone with one offset all year. -/
def fixedZone (offset : Int) : TimeZone where
  offsetAt _ := offset
  offsetOfLocal _ := offset

/-- The zone of UTC. -/
def utcZone : TimeZone := fixedZone 0

/-- A zone with daylight saving: New York in 2024, five hours behind UTC, and
four hours behind from 2024-03-10T07:00:00Z to 2024-11-03T06:00:00Z, that is
from 03:00 on 10 March to 02:00 on 3 November in local time. -/
def newYork2024 : TimeZone where
  offsetAt t := if 1710054000000 ≤ t ∧ t < 1730613600000 then -14400000 else -18000000
  offsetOfLocal t := if 1710039600000 ≤ t ∧ t < 1730599200000 then -14400000 else -18000000

/-- The local time value of a time value. -/
def LocalTime (tz : TimeZone) (t : Int) : Int := t + tz.offsetAt t

/-- The time value of a local time value. -/
def UTC (tz : TimeZone) (t : Int) : Int := t - tz.offsetOfLocal t

/-- The method `getDate()` of a valid date: the day of the month in local time. -/
def getDate (tz : TimeZone) (t : Int) : Int := DateFromTime (LocalTime tz t)

/-- The method `setDate(date)` of a valid date with time value `t`: the day of
the month is replaced in local time, the time of day is kept, the new local
time is read in the zone and the result is clipped; `date = NaN` gives an
invalid date. -/
def setDate (tz : TimeZone) (t : Int) (date : Option Int) : Option Int :=
  match date with
  | none => none
  | some dt =>
    TimeClip (UTC tz (MakeDate
      (MakeDay (YearFromTime (LocalTime tz t)) (MonthFromTime (LocalTime tz t)) dt)
      (TimeWithinDay (LocalTime tz t))))

/-- The constructor `new Date(year, month, date)`: local midnight of that day,
`month` 0-based, read in the zone.  A year from 0 to 99 stands for 1900 + year. -/
def newDate (tz : TimeZone) (year month date : Int) : Option Int :=
  let yr := if 0 ≤ year ∧ year ≤ 99 then 1900 + year else year
  TimeClip (UTC tz (MakeDate (MakeDay yr month date) 0))

/-- The decimal digit `n % 10` as a character. -/
def digitChar (n : Nat) : Char :=
  match n % 10 with
  | 0 => '0' | 1 => '1' | 2 => '2' | 3 => '3' | 4 => '4'
  | 5 => '5' | 6 => '6' | 7 => '7' | 8 => '8' | _ => '9'

/-- Two decimal digits. -/
def pad2 (n : Nat) : List Char := [digitChar (n / 10), digitChar n]

/-- Four decimal digits. -/
def pad4 (n : Nat) : List Char :=
  [digitChar (n / 1000), digitChar (n / 100), digitChar (n / 10), digitChar n]

/-- Six decimal digits. -/
def pad6 (n : Nat) : List Char :=
  [digitChar (n / 100000), digitChar (n / 10000), digitChar (n / 1000),
    digitChar (n / 100), digitChar (n / 10), digitChar n]

/-- The year of an ISO string: four digits from 0 to 9999, otherwise a sign and
six digits. -/
def yearString (y : Int) : List Char :=
  if 0 ≤ y ∧ y ≤ 9999 then pad4 y.toNat
  else (if y < 0 then '-' else '+') :: pad6 y.natAbs

/-- The string `YYYY-MM-DD` of the calendar date of a day number. -/
def isoDate (day : Int) : String :=
  String.mk (yearString (civilFromDays day).1 ++ '-' :: pad2 (civilFromDays day).2.1.toNat
    ++ '-' :: pad2 (civilFromDays day).2.2.toNat)

/-- The expression `date.toISOString().split("T")[0]`: the UTC calendar date of
the time value; on an invalid date `toISOString` throws a `RangeError`. -/
def toISODateString (date : Option Int) : Option String :=
  date.map fun t => isoDate (Day t)

/-! ## Rows and cells -/

/-- A row of the sheet as fetched. -/
abbrev Row := List String

/-- The cell `row[i]`; `none` is `undefined`. -/
def cell (row : Row) (i : Nat) : Option String := row.get? i

/-- Truthiness of a cell: a non-empty string. -/
def truthy (c : Option String) : Bool :=
  match c with
  | none => false
  | some s => decide (s ≠ "")

/-! ## `parseInt` -/

/-- White space and line terminators, which `parseInt` skips at the start. -/
def isStrWhiteSpace (c : Char) : Bool :=
  c.toNat ∈ [0x09, 0x0A, 0x0B, 0x0C, 0x0D, 0x20, 0xA0, 0x1680, 0x2028, 0x2029, 0x202F,
    0x205F, 0x3000, 0xFEFF] || (0x2000 ≤ c.toNat && c.toNat ≤ 0x200A)

/-- The value of a character as a digit of a radix up to 36. -/
def digitOf (c : Char) : Option Nat :=
  if 48 ≤ c.toNat ∧ c.toNat ≤ 57 then some (c.toNat - 48)
  else if 97 ≤ c.toNat ∧ c.toNat ≤ 122 then some (c.toNat - 87)
  else if 65 ≤ c.toNat ∧ c.toNat ≤ 90 then some (c.toNat - 55)
  else none

/-- The values of the longest prefix of digits of the radix. -/
def radixDigits (radix : Nat) : List Char → List Nat
  | [] => []
  | c :: cs =>
    match digitOf c with
    | some v => if v < radix then v :: radixDigits radix cs else []
    | none => []

/-- The sign of the literal and the rest of it. -/
def stripSign (cs : List Char) : Bool × List Char :=
  match cs with
  | '-' :: r => (true, r)
  | '+' :: r => (false, r)
  | r => (false, r)

/-- The radix of the literal, 16 after `0x` or `0X` and 10 otherwise, and the
rest of it. -/
def stripRadix (cs : List Char) : Nat × List Char :=
  match cs with
  | '0' :: 'x' :: r => (16, r)
  | '0' :: 'X' :: r => (16, r)
  | r => (10, r)

/-- The function `parseInt(string)` with no radix argument; `none` is `NaN`. -/
def parseInt (s : String) : Option Int :=
  let signed := stripSign (s.data.dropWhile isStrWhiteSpace)
  let based := stripRadix signed.2
  let ds := radixDigits based.1 based.2
  if ds = [] then none
  else
    let v : Nat := ds.foldl (fun acc d => acc * based.1 + d) 0
    some (if signed.1 then -(v : Int) else (v : Int))

/-! ## `POST /api/update-status` -/

/-- The table `gaps` of line 114. -/
def gaps : List Nat := [1, 3, 7, 15, 30]

/-- The variable `revisionCount` of lines 100-105: 0 unless `row[3]` is truthy,
and then `parseInt(row[8])` if `row[8]` is truthy and 1 if not. -/
def revisionCountOf (row : Row) : Option Int :=
  if truthy (cell row 3) then
    if truthy (cell row 8) then (cell row 8).bind parseInt else some 1
  else some 0

/-- The expression `Math.min(revisionCount, gaps.length - 1)`. -/
def clampIndex (revisionCount : Option Int) : Option Int :=
  revisionCount.map fun n => min n ((gaps.length : Int) - 1)

/-- An array read `gaps[i]`: `undefined` unless `i` is an index of the array. -/
def gapsAt (i : Option Int) : Option Nat :=
  match i with
  | some (Int.ofNat k) => gaps.get? k
  | _ => none

/-- The variable `nextGap` of line 115. -/
def nextGap (revisionCount : Option Int) : Option Nat :=
  gapsAt (clampIndex revisionCount)

/-- The three values written by the route. -/
structure Update where
  /-- Column C. -/
  status : String
  /-- Column D. -/
  lastRevised : String
  /-- Column G. -/
  nextDue : String
deriving DecidableEq, Repr

/-- The variable `nextDue` of lines 110-120 when `newStatus` is `"Revised"`:
`nextDate` is `today` with `setDate(today.getDate() + nextGap)`. -/
def nextDueOf (tz : TimeZone) (now : Nat) (revisionCount : Option Int) : Option String :=
  toISODateString
    (setDate tz now ((nextGap revisionCount).map fun g => getDate tz now + (g : Int)))

/-- Lines 99-139 on the fetched row: the values of the three cells, or `none`
when a statement throws. -/
def computeRevisionUpdate (tz : TimeZone) (now : Nat) (row : Row) (newStatus : String) :
    Option Update :=
  (toISODateString (some (now : Int))).bind fun todayStr =>
    if newStatus = "Revised" then
      (nextDueOf tz now (revisionCountOf row)).map fun nextDue =>
        { status := newStatus, lastRevised := todayStr, nextDue := nextDue }
    else
      some { status := newStatus, lastRevised := "", nextDue := "" }

/-- One entry of the `data` of `batchUpdate`: the single cell in a column of
`Sheet1` at a 1-based row number, and its new value. -/
structure CellWrite where
  /-- The column letter of the range. -/
  column : String
  /-- The row number of the range. -/
  rowNumber : Nat
  /-- The value. -/
  value : String
deriving DecidableEq, Repr

/-- The route: the row `allData[rowIndex]` is read (reading a cell of
`undefined` throws), the update is computed and the three ranges
`C{rowIndex + 2}`, `D{rowIndex + 2}`, `G{rowIndex + 2}` are written. -/
def updateStatus (tz : TimeZone) (now : Nat) (allData : List Row) (rowIndex : Nat)
    (newStatus : String) : Option (List CellWrite) :=
  match allData.get? rowIndex with
  | none => none
  | some row =>
    (computeRevisionUpdate tz now row newStatus).map fun u =>
      [ { column := "C", rowNumber := rowIndex + 2, value := u.status },
        { column := "D", rowNumber := rowIndex + 2, value := u.lastRevised },
        { column := "G", rowNumber := rowIndex + 2, value := u.nextDue } ]

/-! ## `GET /api/due-today` and `GET /api/overdue` -/

/-- The table `dueIntervals` of lines 160 and 195. -/
def dueIntervals : List Int := [1, 3, 7, 15, 30]

/-- The character is one of `0` to `9`, what `\d` matches. -/
def isDigitChar (c : Char) : Bool := decide (48 ≤ c.toNat) && decide (c.toNat ≤ 57)

/-- The test of `/^\d{4}-\d{2}-\d{2}$/`. -/
def dateRegexTest (s : String) : Bool :=
  match s.data with
  | [a, b, c, d, h1, e, f, h2, g, i] =>
    isDigitChar a && isDigitChar b && isDigitChar c && isDigitChar d && decide (h1 = '-')
      && isDigitChar e && isDigitChar f && decide (h2 = '-') && isDigitChar g && isDigitChar i
  | _ => false

/-- The value of a digit character. -/
def digitVal (c : Char) : Int := ((c.toNat - 48 : Nat) : Int)

/-- The expression `dateStudiedStr.split("-").map(Number)` on a string that
passed the test: the numbers of the characters 0-3, 5-6 and 8-9.  Strings of
another length do not reach it. -/
def splitNumbers (s : String) : Option (Int × Int × Int) :=
  match s.data with
  | [a, b, c, d, _, e, f, _, g, i] =>
    some (1000 * digitVal a + 100 * digitVal b + 10 * digitVal c + digitVal d,
      10 * digitVal e + digitVal f, 10 * digitVal g + digitVal i)
  | _ => none

/-- The variable `diffDays` of line 175 (`diff` of line 206):
`Math.floor((today - new Date(year, month - 1, day)) / 86400000)`; `none` is
`NaN`. -/
def diffDays (tz : TimeZone) (now : Nat) (dateStudiedStr : String) : Option Int :=
  (splitNumbers dateStudiedStr).bind fun ymd =>
    (newDate tz ymd.1 (ymd.2.1 - 1) ymd.2.2).map fun dateStudied =>
      ((now : Int) - dateStudied) / msPerDay

/-- The predicate of the filter of lines 164-180. -/
def isDueToday (tz : TimeZone) (now : Nat) (row : Row) : Bool :=
  match cell row 5 with
  | none => false
  | some dateStudiedStr =>
    if dateStudiedStr = "" ∨ dateRegexTest dateStudiedStr = false then false
    else
      match diffDays tz now dateStudiedStr with
      | none => false
      | some d => dueIntervals.contains d

/-- The predicate of the filter of lines 197-210. -/
def isOverdue (tz : TimeZone) (now : Nat) (row : Row) : Bool :=
  if cell row 2 ≠ some "Not Revised" then false
  else
    match cell row 5 with
    | none => false
    | some dateStudiedStr =>
      if dateStudiedStr = "" ∨ dateRegexTest dateStudiedStr = false then false
      else
        match diffDays tz now dateStudiedStr with
        | none => false
        | some diff => dueIntervals.any fun interval => decide (diff > interval)

/-- The local calendar day of the clock reading. -/
def localDay (tz : TimeZone) (now : Nat) : Int := Day (LocalTime tz now)

/-- The gap of the specification for a count that is a non-negative integer, in
the words of the specification: the entry of the table 1, 3, 7, 15, 30 at the
count, the last entry from 4 on. -/
def gapFor (n : Int) : Nat :=
  if n ≤ 0 then 1 else if n = 1 then 3 else if n = 2 then 7 else if n = 3 then 15 else 30

/-- The number of days of month `m` (1-based) of year `y`. -/
def daysInMonth (y m : Int) : Int :=
  if m = 2 then (if y % 4 = 0 ∧ (y % 100 ≠ 0 ∨ y % 400 = 0) then 29 else 28)
  else if m = 4 ∨ m = 6 ∨ m = 9 ∨ m = 11 then 30 else 31

/-- The date `y-m-d` exists in the calendar. -/
def validCivil (y m d : Int) : Prop :=
  1 ≤ m ∧ m ≤ 12 ∧ 1 ≤ d ∧ d ≤ daysInMonth y m

instance (y m d : Int) : Decidable (validCivil y m d) := by
  unfold validCivil; infer_instance

/-! ## The calendar -/

/-- The steps of `civilFromDays` on named intermediate values: the date found
has the day number it was computed from. -/
theorem civil_aux (z1 era doe c n1 q n2 yr doy yoe mp d m y : Int)
    (hera : era = z1 / 146097) (hdoe : doe = z1 - era * 146097)
    (hc : c = min (doe / 36524) 3) (hn1 : n1 = doe - 36524 * c)
    (hq : q = n1 / 1461) (hn2 : n2 = n1 - 1461 * q)
    (hyr : yr = min (n2 / 365) 3) (hdoy : doy = n2 - 365 * yr)
    (hyoe : yoe = 100 * c + 4 * q + yr)
    (hmp : mp = (5 * doy + 2) / 153) (hd : d = doy - (153 * mp + 2) / 5 + 1)
    (hm : m = if mp < 10 then mp + 3 else mp - 9)
    (hy : y = if m ≤ 2 then yoe + era * 400 + 1 else yoe + era * 400) :
    daysFromCivil y m d = z1 - 719468 ∧ 1 ≤ m ∧ m ≤ 12 ∧ 1 ≤ d ∧ d ≤ 31 := by
  have b1 : 0 ≤ doe ∧ doe ≤ 146096 := by omega
  have b2 : 0 ≤ c ∧ c ≤ 3 := by omega
  have b3 : 0 ≤ n1 ∧ n1 ≤ 36524 := by omega
  have b4 : 0 ≤ q ∧ q ≤ 24 := by omega
  have b5 : 0 ≤ n2 ∧ n2 ≤ 1460 := by omega
  have b6 : 0 ≤ yr ∧ yr ≤ 3 := by omega
  have b7 : 0 ≤ doy ∧ doy ≤ 365 := by omega
  have b8 : 0 ≤ mp ∧ mp ≤ 11 := by omega
  have b9 : yoe / 4 = 25 * c + q := by omega
  have b10 : yoe / 100 = c := by omega
  have b11 : 1 ≤ d ∧ d ≤ 31 := by omega
  have b12 : (yoe + era * 400) / 400 = era := by omega
  have e1 : (if m ≤ 2 then y - 1 else y) = yoe + era * 400 := by
    rw [hy]; split_ifs <;> omega
  have e2 : (if m > 2 then m - 3 else m + 9) = mp := by
    rw [hm]; split_ifs <;> omega
  refine ⟨?_, ?_, ?_, b11.1, b11.2⟩
  · simp only [daysFromCivil]
    rw [e1, e2, b12]
    have e3 : yoe + era * 400 - era * 400 = yoe := by ring
    rw [e3, b9, b10]
    omega
  · rw [hm]; split_ifs <;> omega
  · rw [hm]; split_ifs <;> omega

/-- The calendar date of a day number has that day number, a month from 1 to
12 and a day from 1 to 31. -/
theorem civilFromDays_spec (z : Int) :
    daysFromCivil (civilFromDays z).1 (civilFromDays z).2.1 (civilFromDays z).2.2 = z ∧
      1 ≤ (civilFromDays z).2.1 ∧ (civilFromDays z).2.1 ≤ 12 ∧
      1 ≤ (civilFromDays z).2.2 ∧ (civilFromDays z).2.2 ≤ 31 := by
  have h := civil_aux (z + 719468) _ _ _ _ _ _ _ _ _ _ _ _ _
    rfl rfl rfl rfl rfl rfl rfl rfl rfl rfl rfl rfl rfl
  simpa [civilFromDays] using h

/-- The day number is affine in the day of the month. -/
theorem daysFromCivil_day (y m d : Int) :
    daysFromCivil y m d = daysFromCivil y m 1 + d - 1 := by
  simp only [daysFromCivil]
  omega

/-- With a month from 1 to 12, `MakeDay` is the day number of the date. -/
theorem MakeDay_eq (y m d : Int) (h1 : 1 ≤ m) (h2 : m ≤ 12) :
    MakeDay y (m - 1) d = daysFromCivil y m d := by
  have e1 : (m - 1) / 12 = 0 := by omega
  have e2 : (m - 1) % 12 + 1 = m := by omega
  rw [MakeDay, e1, e2, daysFromCivil_day y m d]
  simp

/-- Adding `g` to the day of the month moves the day number by `g`. -/
theorem MakeDay_shift (t g : Int) :
    MakeDay (YearFromTime t) (MonthFromTime t) (DateFromTime t + g) = Day t + g := by
  obtain ⟨h0, h1, h2, -, -⟩ := civilFromDays_spec (Day t)
  rw [MonthFromTime, MakeDay_eq _ _ _ h1 h2, YearFromTime, DateFromTime, daysFromCivil_day]
  rw [daysFromCivil_day] at h0
  omega

/-- The method `setDate(getDate() + g)` moves the local time by `g` days and
reads the new local time in the zone. -/
theorem setDate_getDate (tz : TimeZone) (t g : Int) :
    setDate tz t (some (getDate tz t + g)) =
      TimeClip (UTC tz (LocalTime tz t + g * msPerDay)) := by
  have e : (Day (LocalTime tz t) + g) * msPerDay + TimeWithinDay (LocalTime tz t) =
      LocalTime tz t + g * msPerDay := by
    simp only [Day, TimeWithinDay, msPerDay]
    omega
  simp only [setDate, getDate, MakeDay_shift, MakeDate, e]

/-- The day number moves with whole days. -/
theorem Day_add (t g : Int) : Day (t + g * msPerDay) = Day t + g := by
  simp only [Day, msPerDay]
  omega

/-- The day numbers count from 1970-01-01. -/
theorem daysFromCivil_epoch : daysFromCivil 1970 1 1 = 0 := by decide

/-- The first day of a month follows the last day of the month before. -/
theorem daysFromCivil_next_month (y m : Int) (h1 : 1 ≤ m) (h2 : m < 12) :
    daysFromCivil y (m + 1) 1 = daysFromCivil y m (daysInMonth y m) + 1 := by
  simp only [daysFromCivil, daysInMonth]
  have hm : m = 1 ∨ m = 2 ∨ m = 3 ∨ m = 4 ∨ m = 5 ∨ m = 6 ∨ m = 7 ∨ m = 8 ∨ m = 9 ∨ m = 10 ∨
      m = 11 := by omega
  rcases hm with h | h | h | h | h | h | h | h | h | h | h <;> subst h <;> norm_num <;> omega

/-- The first day of a year follows the last day of the year before. -/
theorem daysFromCivil_next_year (y : Int) :
    daysFromCivil (y + 1) 1 1 = daysFromCivil y 12 31 + 1 := by
  simp only [daysFromCivil]
  norm_num
  omega

/-- The steps of `civilFromDays` on named intermediate values: the date found
exists in the calendar. -/
theorem civil_valid_aux (z1 era doe c n1 q n2 yr doy yoe mp d m y : Int)
    (hera : era = z1 / 146097) (hdoe : doe = z1 - era * 146097)
    (hc : c = min (doe / 36524) 3) (hn1 : n1 = doe - 36524 * c)
    (hq : q = n1 / 1461) (hn2 : n2 = n1 - 1461 * q)
    (hyr : yr = min (n2 / 365) 3) (hdoy : doy = n2 - 365 * yr)
    (hyoe : yoe = 100 * c + 4 * q + yr)
    (hmp : mp = (5 * doy + 2) / 153) (hd : d = doy - (153 * mp + 2) / 5 + 1)
    (hm : m = if mp < 10 then mp + 3 else mp - 9)
    (hy : y = if m ≤ 2 then yoe + era * 400 + 1 else yoe + era * 400) :
    validCivil y m d := by
  have b1 : 0 ≤ doe ∧ doe ≤ 146096 := by omega
  have b2 : 0 ≤ c ∧ c ≤ 3 := by omega
  have b3 : 0 ≤ n1 ∧ n1 ≤ 36524 := by omega
  have b4 : 0 ≤ q ∧ q ≤ 24 := by omega
  have b5 : 0 ≤ n2 ∧ n2 ≤ 1460 := by omega
  have b6 : 0 ≤ yr ∧ yr ≤ 3 := by omega
  have b7 : 0 ≤ doy ∧ doy ≤ 365 := by omega
  have b8 : doy = 365 → yr = 3 ∧ n2 = 1460 := by omega
  have b9 : 0 ≤ mp ∧ mp ≤ 11 := by omega
  have hleap : doy = 365 →
      (yoe + 1) % 4 = 0 ∧ ((yoe + 1) % 100 ≠ 0 ∨ (yoe + 1) % 400 = 0) := by
    intro h
    obtain ⟨h3, h1460⟩ := b8 h
    have hq24 : q = 24 → c = 3 := by omega
    omega
  have hm2 : (mp < 10 ∧ m = mp + 3) ∨ (10 ≤ mp ∧ m = mp - 9) := by
    rw [hm]; split_ifs <;> omega
  have hy2 : (m ≤ 2 ∧ y = yoe + era * 400 + 1) ∨ (2 < m ∧ y = yoe + era * 400) := by
    rw [hy]; split_ifs <;> omega
  have hd1 : 1 ≤ d := by omega
  unfold validCivil daysInMonth
  refine ⟨by omega, by omega, hd1, ?_⟩
  split_ifs with h2 hl h30
  · omega
  · have hne : doy ≠ 365 := by
      intro h365
      have := hleap h365
      apply hl
      omega
    omega
  · omega
  · omega

/-- The calendar date of a day number exists in the calendar. -/
theorem civilFromDays_valid (z : Int) :
    validCivil (civilFromDays z).1 (civilFromDays z).2.1 (civilFromDays z).2.2 := by
  have h := civil_valid_aux (z + 719468) _ _ _ _ _ _ _ _ _ _ _ _ _
    rfl rfl rfl rfl rfl rfl rfl rfl rfl rfl rfl rfl rfl
  simpa [civilFromDays] using h

/-! ## Marking a row -/

/-- The gap of a count that is a non-negative integer. -/
theorem nextGap_nonneg (n : Int) (h : 0 ≤ n) :
    nextGap (some n) = gaps.get? (min n 4).toNat := by
  have e : (gaps.length : Int) - 1 = 4 := by decide
  obtain ⟨k, hk⟩ := Int.eq_ofNat_of_zero_le (by omega : 0 ≤ min n 4)
  simp only [nextGap, clampIndex, Option.map_some', e]
  rw [hk]
  rfl

/-- The gap of a count from 0 to 3 and of a larger one. -/
theorem nextGap_cases (n : Int) (h : 0 ≤ n) :
    nextGap (some n) =
      some (if n = 0 then 1 else if n = 1 then 3 else if n = 2 then 7
        else if n = 3 then 15 else 30) := by
  rw [nextGap_nonneg n h]
  rcases (by omega : n = 0 ∨ n = 1 ∨ n = 2 ∨ n = 3 ∨ 4 ≤ n) with h | h | h | h | h
  · subst h; rfl
  · subst h; rfl
  · subst h; rfl
  · subst h; rfl
  · have e : min n 4 = 4 := by omega
    rw [e]
    have : ¬ n = 0 ∧ ¬ n = 1 ∧ ¬ n = 2 ∧ ¬ n = 3 := by omega
    simp [this, gaps]

/-- The update of a row marked "Revised", given its gap and the time value of
the new date. -/
theorem computeRevisionUpdate_general (tz : TimeZone) (now : Nat) (row : Row) (g : Nat)
    (x : Int) (hg : nextGap (revisionCountOf row) = some g)
    (hclip : TimeClip (UTC tz (LocalTime tz now + (g : Int) * msPerDay)) = some x) :
    computeRevisionUpdate tz now row "Revised" =
      some { status := "Revised", lastRevised := isoDate (Day now),
             nextDue := isoDate (Day x) } := by
  simp [computeRevisionUpdate, toISODateString, nextDueOf, hg, setDate_getDate, hclip]

/-- The update of a row marked "Revised" when the new local time is read with
the offset in force now: the new date is `g` days after today. -/
theorem computeRevisionUpdate_revised (tz : TimeZone) (now : Nat) (row : Row) (g : Nat)
    (hg : nextGap (revisionCountOf row) = some g)
    (hzone : tz.offsetOfLocal (LocalTime tz now + (g : Int) * msPerDay) = tz.offsetAt now)
    (hr : (now : Int) + (g : Int) * msPerDay ≤ maxTime) :
    computeRevisionUpdate tz now row "Revised" =
      some { status := "Revised", lastRevised := isoDate (Day now),
             nextDue := isoDate (Day now + g) } := by
  have hutc : UTC tz (LocalTime tz now + (g : Int) * msPerDay) =
      (now : Int) + (g : Int) * msPerDay := by
    rw [UTC, hzone, LocalTime]
    ring
  have hclip : TimeClip ((now : Int) + (g : Int) * msPerDay) =
      some ((now : Int) + (g : Int) * msPerDay) := by
    have h0 : (0 : Int) ≤ (now : Int) + (g : Int) * msPerDay := by
      have : (0 : Int) ≤ msPerDay := by decide
      positivity
    have h1 : -maxTime ≤ (now : Int) + (g : Int) * msPerDay := by
      have : maxTime = 8640000000000000 := rfl
      omega
    simp [TimeClip, h1, hr]
  rw [← hutc] at hclip
  rw [computeRevisionUpdate_general tz now row g _ hg hclip, hutc, Day_add]

/-- The update of a row marked "Revised" exists when the gap does and the new
date is a valid time value. -/
theorem computeRevisionUpdate_succeeds (tz : TimeZone) (now : Nat) (row : Row) (g : Nat)
    (hg : nextGap (revisionCountOf row) = some g)
    (hr : -maxTime ≤ UTC tz (LocalTime tz now + (g : Int) * msPerDay) ∧
      UTC tz (LocalTime tz now + (g : Int) * msPerDay) ≤ maxTime) :
    ∃ u : Update, computeRevisionUpdate tz now row "Revised" = some u ∧
      u.status = "Revised" := by
  have hclip : TimeClip (UTC tz (LocalTime tz now + (g : Int) * msPerDay)) =
      some (UTC tz (LocalTime tz now + (g : Int) * msPerDay)) := by
    rw [TimeClip, if_pos hr]
  exact ⟨_, computeRevisionUpdate_general tz now row g _ hg hclip, rfl⟩

/-- In a zone with one offset the dates up to 30 days after the clock reading
are valid time values when the last of them is. -/
theorem fixedZone_later (offset : Int) (now : Nat)
    (h : (now : Int) + 30 * msPerDay ≤ maxTime) :
    ∀ g : Nat, g ≤ 30 →
      -maxTime ≤ UTC (fixedZone offset) (LocalTime (fixedZone offset) now + (g : Int) * msPerDay) ∧
        UTC (fixedZone offset) (LocalTime (fixedZone offset) now + (g : Int) * msPerDay)
          ≤ maxTime := by
  intro g hg
  have h0 : (0 : Int) ≤ (now : Int) := Int.ofNat_nonneg now
  have hg0 : (0 : Int) ≤ (g : Int) := Int.ofNat_nonneg g
  have hg1 : (g : Int) ≤ 30 := by exact_mod_cast hg
  simp only [UTC, LocalTime, fixedZone, msPerDay, maxTime] at h ⊢
  constructor <;> omega

/-- In a zone whose offsets lie within a day of UTC the dates up to 30 days
after the clock reading are valid time values when the clock is 32 days before
the last time value. -/
theorem boundedZone_later (tz : TimeZone) (now : Nat)
    (hb : ∀ t, (-msPerDay ≤ tz.offsetAt t ∧ tz.offsetAt t ≤ msPerDay) ∧
      (-msPerDay ≤ tz.offsetOfLocal t ∧ tz.offsetOfLocal t ≤ msPerDay))
    (h : (now : Int) + 32 * msPerDay ≤ maxTime) :
    ∀ g : Nat, g ≤ 30 →
      -maxTime ≤ UTC tz (LocalTime tz now + (g : Int) * msPerDay) ∧
        UTC tz (LocalTime tz now + (g : Int) * msPerDay) ≤ maxTime := by
  intro g hg
  have h0 : (0 : Int) ≤ (now : Int) := Int.ofNat_nonneg now
  have hg0 : (0 : Int) ≤ (g : Int) := Int.ofNat_nonneg g
  have hg1 : (g : Int) ≤ 30 := by exact_mod_cast hg
  have ha := (hb now).1
  have hl := (hb (LocalTime tz now + (g : Int) * msPerDay)).2
  simp only [UTC, LocalTime, msPerDay, maxTime] at h ha hl ⊢
  constructor <;> omega

/-- The count of a row, from its cells 3 and 8. -/
theorem revisionCountOf_cells (row : Row) (n : Int)
    (hcount : ((cell row 3 = none ∨ cell row 3 = some "") ∧ n = 0) ∨
      (∃ s, cell row 3 = some s ∧ s ≠ "" ∧ (cell row 8 = none ∨ cell row 8 = some "") ∧
        n = 1) ∨
      (∃ s c, cell row 3 = some s ∧ s ≠ "" ∧ cell row 8 = some c ∧ c ≠ "" ∧
        parseInt c = some n)) :
    revisionCountOf row = some n := by
  rcases hcount with ⟨h | h, rfl⟩ | ⟨s, h3, hs, h | h, rfl⟩ | ⟨s, c, h3, hs, h8, hc, hp⟩
  · simp [revisionCountOf, truthy, h]
  · simp [revisionCountOf, truthy, h]
  · simp [revisionCountOf, truthy, h3, hs, h]
  · simp [revisionCountOf, truthy, h3, hs, h]
  · simp [revisionCountOf, truthy, h3, hs, h8, hc, hp]

/-- The gap of the code at a count that is a non-negative integer is the gap of
the specification. -/
theorem nextGap_gapFor (n : Int) (h : 0 ≤ n) : nextGap (some n) = some (gapFor n) := by
  rw [nextGap_cases n h, gapFor]
  congr 1
  split_ifs <;> omega

/-- The route on an existing row writes the three values of the update. -/
theorem updateStatus_of_update (tz : TimeZone) (now : Nat) (allData : List Row) (i : Nat)
    (newStatus : String) (row : Row) (u : Update) (hrow : allData.get? i = some row)
    (hu : computeRevisionUpdate tz now row newStatus = some u) :
    updateStatus tz now allData i newStatus =
      some [ { column := "C", rowNumber := i + 2, value := u.status },
        { column := "D", rowNumber := i + 2, value := u.lastRevised },
        { column := "G", rowNumber := i + 2, value := u.nextDue } ] := by
  unfold updateStatus
  rw [hrow]
  dsimp only
  rw [hu]
  rfl

/-- In a zone with daylight saving the date written as `nextDueDate` is not
always the gap after `lastRevisedDate`: in New York, on the evenings before the
two transitions of 2024, a row never revised (gap 1) gets a next due date 0
days and 2 days after the last revised date; the claim C1 fails there. -/
theorem markRevised_dst :
    nextGap (revisionCountOf []) = some 1 ∧
      computeRevisionUpdate newYork2024 1710030600000 [] "Revised" =
        some { status := "Revised", lastRevised := "2024-03-10", nextDue := "2024-03-10" } ∧
      computeRevisionUpdate newYork2024 1730590200000 [] "Revised" =
        some { status := "Revised", lastRevised := "2024-11-02", nextDue := "2024-11-04" } := by
  decide

/-- Claim C1, amended. A row marked "Revised" gets the UTC calendar date of the
clock reading as `lastRevisedDate`.  Its count `n` is 0 when `lastRevisedDate`
was empty, 1 when it was not and the cell 8 is absent or empty, and the number
in the cell 8 otherwise.  When the new local time, `gapFor n` days later on the
local clock, is read with the offset from UTC that is in force now (always so
in a zone without daylight saving), `nextDueDate` is the calendar date whose
day number is larger than today's by exactly `gapFor n`, whatever the month
and the year; these are the values the route writes in columns D and G. -/
theorem markRevised_dates (tz : TimeZone) (now : Nat) (row : Row) (n : Int) (hn : 0 ≤ n)
    (hcount : ((cell row 3 = none ∨ cell row 3 = some "") ∧ n = 0) ∨
      (∃ s, cell row 3 = some s ∧ s ≠ "" ∧ (cell row 8 = none ∨ cell row 8 = some "") ∧
        n = 1) ∨
      (∃ s c, cell row 3 = some s ∧ s ≠ "" ∧ cell row 8 = some c ∧ c ≠ "" ∧
        parseInt c = some n))
    (hzone : tz.offsetOfLocal (LocalTime tz now + (gapFor n : Int) * msPerDay) =
      tz.offsetAt now)
    (hr : (now : Int) + (gapFor n : Int) * msPerDay ≤ maxTime) :
    computeRevisionUpdate tz now row "Revised" =
        some { status := "Revised", lastRevised := isoDate (Day now),
               nextDue := isoDate (Day now + gapFor n) } ∧
      (∀ (allData : List Row) (i : Nat), allData.get? i = some row →
        updateStatus tz now allData i "Revised" =
          some [ { column := "C", rowNumber := i + 2, value := "Revised" },
            { column := "D", rowNumber := i + 2, value := isoDate (Day now) },
            { column := "G", rowNumber := i + 2, value := isoDate (Day now + gapFor n) } ]) ∧
      validCivil (civilFromDays (Day now + gapFor n)).1 (civilFromDays (Day now + gapFor n)).2.1
        (civilFromDays (Day now + gapFor n)).2.2 ∧
      daysFromCivil (civilFromDays (Day now + gapFor n)).1
          (civilFromDays (Day now + gapFor n)).2.1 (civilFromDays (Day now + gapFor n)).2.2 -
        daysFromCivil (civilFromDays (Day now)).1 (civilFromDays (Day now)).2.1
          (civilFromDays (Day now)).2.2 = gapFor n := by
  have hg : nextGap (revisionCountOf row) = some (gapFor n) := by
    rw [revisionCountOf_cells row n hcount, nextGap_gapFor n hn]
  have hu := computeRevisionUpdate_revised tz now row (gapFor n) hg hzone hr
  refine ⟨hu, ?_, civilFromDays_valid _, ?_⟩
  · intro allData i hrow
    exact updateStatus_of_update tz now allData i "Revised" row _ hrow hu
  · rw [(civilFromDays_spec _).1, (civilFromDays_spec _).1]
    ring

/-- The scenario of C1, no cell at all and the clock at 2024-01-10T00:00:00Z in
the zone of UTC; and a row with the count 2 in New York on 2024-01-10 at 10:00,
due 7 days later. -/
theorem markRevised_dates_witness :
    computeRevisionUpdate utcZone 1704844800000 [] "Revised" =
        some { status := "Revised", lastRevised := "2024-01-10", nextDue := "2024-01-11" } ∧
      computeRevisionUpdate newYork2024 1704898800000
          ["Math", "Algebra", "Revised", "2024-01-02", "", "2024-01-01", "", "", "2"]
          "Revised" =
        some { status := "Revised", lastRevised := "2024-01-10", nextDue := "2024-01-17" } :=
  ⟨(markRevised_dates utcZone 1704844800000 [] 0 (by decide)
      (Or.inl ⟨Or.inl (by decide), rfl⟩) (by decide) (by decide)).1.trans (by decide),
    (markRevised_dates newYork2024 1704898800000
      ["Math", "Algebra", "Revised", "2024-01-02", "", "2024-01-01", "", "", "2"] 2
      (by decide)
      (Or.inr (Or.inr ⟨"2024-01-02", "2", by decide, by decide, by decide, by decide,
        by decide⟩))
      (by decide) (by decide)).1.trans (by decide)⟩

/-- At the end of a year: a row revised before, marked on 2023-12-31 at 23:30
in a zone 5 hours behind UTC, is due three days after 2024-01-01, the UTC date. -/
theorem markRevised_year_end :
    computeRevisionUpdate (fixedZone (-18000000)) 1704083400000
        ["Math", "Algebra", "Revised", "2023-12-30", "", "2023-12-29"] "Revised" =
      some { status := "Revised", lastRevised := "2024-01-01", nextDue := "2024-01-04" } := by
  decide

/-- At the end of February of a leap year. -/
theorem markRevised_leap_day :
    computeRevisionUpdate utcZone 1709078400000 ["Math", "Algebra", "Not Revised"] "Revised" =
      some { status := "Revised", lastRevised := "2024-02-28", nextDue := "2024-02-29" } := by
  decide

/-- The count of a row with an empty `lastRevisedDate` ignores the
`revisionCount` cell: the claim C2 fails on this row. -/
theorem revisionCount_ignores_cell :
    cell ["Math", "Algebra", "Not Revised", "", "", "2024-01-01", "", "", "3"] 8 = some "3" ∧
      parseInt "3" = some 3 ∧
      revisionCountOf ["Math", "Algebra", "Not Revised", "", "", "2024-01-01", "", "", "3"]
        = some 0 := by
  decide

/-- Claim C2, amended. The count is 0 when `lastRevisedDate` is empty or absent,
whatever the `revisionCount` cell holds; when `lastRevisedDate` is not empty,
it is `parseInt` of the `revisionCount` cell if that cell is present and not
empty, and 1 otherwise. -/
theorem revisionCount_rule (row : Row) :
    ((cell row 3 = none ∨ cell row 3 = some "") → revisionCountOf row = some 0) ∧
      (∀ s, cell row 3 = some s → s ≠ "" → (cell row 8 = none ∨ cell row 8 = some "") →
        revisionCountOf row = some 1) ∧
      (∀ s c, cell row 3 = some s → s ≠ "" → cell row 8 = some c → c ≠ "" →
        revisionCountOf row = parseInt c) := by
  refine ⟨?_, ?_, ?_⟩
  · rintro (h | h) <;> simp [revisionCountOf, truthy, h]
  · rintro s h3 hs (h | h) <;> simp [revisionCountOf, truthy, h3, hs, h]
  · intro s c h3 hs h8 hc
    simp [revisionCountOf, truthy, h3, hs, h8, hc]

/-- The three cases of C2 on rows. -/
theorem revisionCount_rule_witness :
    revisionCountOf ["Math", "Algebra", "Not Revised", "", "", "2024-01-01", "", "", "3"]
        = some 0 ∧
      revisionCountOf ["Math", "Algebra", "Revised", "2024-01-02", "", "2024-01-01"] = some 1 ∧
      revisionCountOf ["Math", "Algebra", "Revised", "2024-01-02", "", "2024-01-01", "", "", "3"]
        = parseInt "3" :=
  ⟨(revisionCount_rule _).1 (Or.inr (by decide)),
    (revisionCount_rule _).2.1 "2024-01-02" (by decide) (by decide) (Or.inl (by decide)),
    (revisionCount_rule _).2.2 "2024-01-02" "3" (by decide) (by decide) (by decide)
      (by decide)⟩

/-- A negative count finds no gap: the claim C3 fails at -1. -/
theorem nextGap_negative : nextGap (some (-1)) = none ∧ nextGap (some (-1)) ≠ some 1 := by
  decide

/-- Claim C3, amended. For counts that are non-negative integers the index is
`min count 4`: the gap is 1 at 0 and 30 from 4 on, and it does not decrease
when the count grows. -/
theorem nextGap_clamps (a b : Int) (ha : 0 ≤ a) (hab : a ≤ b) :
    ∃ ga gb : Nat, nextGap (some a) = some ga ∧ nextGap (some b) = some gb ∧ ga ≤ gb ∧
      nextGap (some a) = gaps.get? (min a 4).toNat ∧ (min a 4).toNat ≤ 4 ∧
      (a = 0 → ga = 1) ∧ (4 ≤ b → gb = 30) := by
  have hb : 0 ≤ b := le_trans ha hab
  refine ⟨_, _, nextGap_cases a ha, nextGap_cases b hb, ?_, nextGap_nonneg a ha, by omega, ?_, ?_⟩
  · split_ifs <;> omega
  · intro h; simp [h]
  · intro h
    have : ¬ b = 0 ∧ ¬ b = 1 ∧ ¬ b = 2 ∧ ¬ b = 3 := by omega
    simp [this]

/-- The counts 0 and 100. -/
theorem nextGap_clamps_witness :
    ∃ ga gb : Nat, nextGap (some 0) = some ga ∧ nextGap (some 100) = some gb ∧ ga ≤ gb ∧
      nextGap (some 0) = gaps.get? (min (0 : Int) 4).toNat ∧ (min (0 : Int) 4).toNat ≤ 4 ∧
      ((0 : Int) = 0 → ga = 1) ∧ ((4 : Int) ≤ 100 → gb = 30) :=
  nextGap_clamps 0 100 (by decide) (by decide)

/-- Claim C4. With a status other than "Revised" the update is that status with
an empty `lastRevisedDate` and an empty `nextDueDate`, whatever the row, and
these are the values the route writes; so marking "Not Revised" gives the same
three values on every row, also on the row as it is after a first marking. -/
theorem markOther_clears (tz : TimeZone) (now : Nat) (row : Row) (newStatus : String)
    (h : newStatus ≠ "Revised") :
    computeRevisionUpdate tz now row newStatus =
        some { status := newStatus, lastRevised := "", nextDue := "" } ∧
      (∀ (allData : List Row) (i : Nat), allData.get? i = some row →
        updateStatus tz now allData i newStatus =
          some [ { column := "C", rowNumber := i + 2, value := newStatus },
            { column := "D", rowNumber := i + 2, value := "" },
            { column := "G", rowNumber := i + 2, value := "" } ]) ∧
      ∀ (tz2 : TimeZone) (now2 : Nat) (row2 : Row),
        computeRevisionUpdate tz2 now2 row2 "Not Revised" =
          some { status := "Not Revised", lastRevised := "", nextDue := "" } := by
  have hu : computeRevisionUpdate tz now row newStatus =
      some { status := newStatus, lastRevised := "", nextDue := "" } := by
    simp [computeRevisionUpdate, toISODateString, h]
  refine ⟨hu, ?_, ?_⟩
  · intro allData i hrow
    exact updateStatus_of_update tz now allData i newStatus row _ hrow hu
  · intro tz2 now2 row2
    simp [computeRevisionUpdate, toISODateString]

/-- Marking "Not Revised" a row that was revised. -/
theorem markOther_clears_witness :
    computeRevisionUpdate utcZone 1704844800000
        ["Math", "Algebra", "Revised", "2024-01-02", "", "2024-01-01"] "Not Revised" =
      some { status := "Not Revised", lastRevised := "", nextDue := "" } :=
  (markOther_clears utcZone 1704844800000 _ "Not Revised" (by decide)).1

/-! ## Due today and overdue -/

/-- A digit character has a value from 0 to 9. -/
theorem digitVal_bounds (c : Char) (h : isDigitChar c = true) :
    0 ≤ digitVal c ∧ digitVal c ≤ 9 := by
  simp only [isDigitChar, Bool.and_eq_true, decide_eq_true_eq] at h
  simp only [digitVal]
  omega

/-- The numbers of a string that passes the test: a year up to 9999, a month
and a day up to 99. -/
theorem splitNumbers_bounds (s : String) (y m d : Int) (hre : dateRegexTest s = true)
    (hsplit : splitNumbers s = some (y, m, d)) :
    0 ≤ y ∧ y ≤ 9999 ∧ 0 ≤ m ∧ m ≤ 99 ∧ 0 ≤ d ∧ d ≤ 99 ∧ s ≠ "" := by
  have hne : s ≠ "" := by
    rintro rfl
    simp [dateRegexTest] at hre
  unfold dateRegexTest at hre
  unfold splitNumbers at hsplit
  split at hre
  · rename_i a b c d1 h1 e f h2 g i heq
    rw [heq] at hsplit
    simp only [Bool.and_eq_true] at hre
    obtain ⟨⟨⟨⟨⟨⟨⟨⟨⟨ha, hb⟩, hc⟩, hd⟩, -⟩, he⟩, hf⟩, -⟩, hg⟩, hi⟩ := hre
    have := digitVal_bounds a ha
    have := digitVal_bounds b hb
    have := digitVal_bounds c hc
    have := digitVal_bounds d1 hd
    have := digitVal_bounds e he
    have := digitVal_bounds f hf
    have := digitVal_bounds g hg
    have := digitVal_bounds i hi
    simp only [Option.some.injEq, Prod.mk.injEq] at hsplit
    obtain ⟨rfl, rfl, rfl⟩ := hsplit
    refine ⟨?_, ?_, ?_, ?_, ?_, ?_, hne⟩ <;> omega
  · simp at hre

/-- A string that passes the test has its three numbers. -/
theorem splitNumbers_of_test (s : String) (hre : dateRegexTest s = true) :
    ∃ y m d, splitNumbers s = some (y, m, d) := by
  unfold dateRegexTest at hre
  unfold splitNumbers
  split at hre
  · rename_i a b c d1 h1 e f h2 g i heq
    exact ⟨_, _, _, rfl⟩
  · simp at hre

/-- The day number of a date of the years 0 to 11899 is small. -/
theorem daysFromCivil_bounds (y m d : Int) (hy0 : 0 ≤ y) (hy1 : y ≤ 11899) (hm0 : 1 ≤ m)
    (hm1 : m ≤ 12) (hd0 : 0 ≤ d) (hd1 : d ≤ 99) :
    -720000 ≤ daysFromCivil y m d ∧ daysFromCivil y m d ≤ 3700000 := by
  simp only [daysFromCivil]
  split_ifs <;> omega

/-- A date of the years 0 to 99 lies before 1970-01-01 by more than a month. -/
theorem daysFromCivil_early (y m d : Int) (hy1 : y ≤ 99) (hm0 : 1 ≤ m)
    (hm1 : m ≤ 12) (hd1 : d ≤ 99) : daysFromCivil y m d < -600000 := by
  simp only [daysFromCivil]
  split_ifs <;> omega

/-- The days between a date studied and the clock reading, for a month from 1
to 12: the whole days from local midnight of the date, read with the offset of
that midnight, to now, the year being read as `1900 + y` when it is below 100. -/
theorem diffDays_eq (tz : TimeZone) (now : Nat) (s : String) (y m d : Int)
    (hre : dateRegexTest s = true) (hsplit : splitNumbers s = some (y, m, d))
    (hm0 : 1 ≤ m) (hm1 : m ≤ 12)
    (ho : -msPerDay ≤ tz.offsetOfLocal
        (daysFromCivil (if 0 ≤ y ∧ y ≤ 99 then 1900 + y else y) m d * msPerDay) ∧
      tz.offsetOfLocal
        (daysFromCivil (if 0 ≤ y ∧ y ≤ 99 then 1900 + y else y) m d * msPerDay) ≤ msPerDay) :
    diffDays tz now s =
      some (Day ((now : Int) + tz.offsetOfLocal
          (daysFromCivil (if 0 ≤ y ∧ y ≤ 99 then 1900 + y else y) m d * msPerDay)) -
        daysFromCivil (if 0 ≤ y ∧ y ≤ 99 then 1900 + y else y) m d) := by
  obtain ⟨hy0, hy1, -, -, hd0, hd1, -⟩ := splitNumbers_bounds s y m d hre hsplit
  have hb := daysFromCivil_bounds (if 0 ≤ y ∧ y ≤ 99 then 1900 + y else y) m d
    (by split_ifs <;> omega) (by split_ifs <;> omega) hm0 hm1 hd0 hd1
  have key : ∀ D t o : Int, -720000 ≤ D → D ≤ 3700000 → -86400000 ≤ o → o ≤ 86400000 →
      (TimeClip (D * 86400000 - o)).map (fun dateStudied => (t - dateStudied) / 86400000)
        = some ((t + o) / 86400000 - D) := by
    intro D t o hD0 hD1 ho0 ho1
    have h1 : -8640000000000000 ≤ D * 86400000 - o := by omega
    have h2 : D * 86400000 - o ≤ 8640000000000000 := by omega
    simp only [TimeClip, maxTime]
    rw [if_pos ⟨h1, h2⟩, Option.map_some']
    congr 1
    omega
  simp only [msPerDay] at ho
  simp only [diffDays, hsplit, Option.some_bind, newDate, MakeDay_eq _ _ _ hm0 hm1, MakeDate,
    msPerDay, UTC, Day, add_zero]
  exact key _ _ _ hb.1 hb.2 ho.1 ho.2

/-- The days between a date studied of a year from 100 on and the clock
reading, when local midnight of the date is read with the offset in force now:
the local calendar days from the date to today. -/
theorem diffDays_calendar (tz : TimeZone) (now : Nat) (s : String) (y m d : Int)
    (hre : dateRegexTest s = true) (hsplit : splitNumbers s = some (y, m, d))
    (hvalid : validCivil y m d) (hy : 100 ≤ y)
    (hzone : tz.offsetOfLocal (daysFromCivil y m d * msPerDay) = tz.offsetAt now)
    (hb : -msPerDay ≤ tz.offsetAt now ∧ tz.offsetAt now ≤ msPerDay) :
    diffDays tz now s = some (localDay tz now - daysFromCivil y m d) := by
  have hyr : (if 0 ≤ y ∧ y ≤ 99 then 1900 + y else y) = y := by
    rw [if_neg]; omega
  have hdiff := diffDays_eq tz now s y m d hre hsplit hvalid.1 hvalid.2.1
    (by rw [hyr, hzone]; exact hb)
  rw [hyr, hzone] at hdiff
  rw [hdiff, localDay, LocalTime]

/-- Membership in the table of intervals. -/
theorem dueIntervals_contains (x : Int) :
    dueIntervals.contains x = true ↔ x = 1 ∨ x = 3 ∨ x = 7 ∨ x = 15 ∨ x = 30 := by
  simp [dueIntervals]

/-- Some interval of the table is exceeded exactly when the smallest one is. -/
theorem dueIntervals_any (x : Int) :
    (dueIntervals.any fun interval => decide (x > interval)) = true ↔ x > 1 := by
  simp only [dueIntervals, List.any_cons, List.any_nil, Bool.or_false, Bool.or_eq_true,
    decide_eq_true_eq]
  omega

/-- The predicate of due-today on a row whose date passes the test. -/
theorem isDueToday_of_diff (tz : TimeZone) (now : Nat) (row : Row) (s : String) (x : Int)
    (hcell : cell row 5 = some s) (hre : dateRegexTest s = true)
    (hdiff : diffDays tz now s = some x) :
    isDueToday tz now row = dueIntervals.contains x := by
  have hne : s ≠ "" := by
    rintro rfl
    simp [dateRegexTest] at hre
  simp [isDueToday, hcell, hne, hre, hdiff]

/-- The predicate of overdue on a "Not Revised" row whose date passes the test. -/
theorem isOverdue_of_diff (tz : TimeZone) (now : Nat) (row : Row) (s : String) (x : Int)
    (hstatus : cell row 2 = some "Not Revised")
    (hcell : cell row 5 = some s) (hre : dateRegexTest s = true)
    (hdiff : diffDays tz now s = some x) :
    isOverdue tz now row = dueIntervals.any fun interval => decide (x > interval) := by
  have hne : s ≠ "" := by
    rintro rfl
    simp [dateRegexTest] at hre
  simp [isOverdue, hstatus, hcell, hne, hre, hdiff]

/-- Across a change of daylight saving the days counted are not the calendar
days: in New York on 2024-03-12 at 00:30 a row studied on 2024-03-09, three
local calendar days ago, is left out.  And the date 0070-01-01 is read as
1970-01-01: on 1970-01-02 the row is kept, 693961 days after the date studied.
The claim C5 fails on both rows. -/
theorem dueToday_dst :
    (dateRegexTest "2024-03-09" = true ∧ splitNumbers "2024-03-09" = some (2024, 3, 9) ∧
        validCivil 2024 3 9 ∧
        localDay newYork2024 1710217800000 - daysFromCivil 2024 3 9 = 3 ∧
        isDueToday newYork2024 1710217800000
          ["Bio", "Cells", "Not Revised", "", "", "2024-03-09"] = false) ∧
      (dateRegexTest "0070-01-01" = true ∧ splitNumbers "0070-01-01" = some (70, 1, 1) ∧
        validCivil 70 1 1 ∧
        localDay utcZone 86400000 - daysFromCivil 70 1 1 = 693961 ∧
        isDueToday utcZone 86400000 ["Bio", "Cells", "Not Revised", "", "", "0070-01-01"]
          = true) := by
  decide

/-- Claim C5, amended. For a row whose `dateStudied` is a valid `YYYY-MM-DD` date
of a year from 0100 on, and a clock reading at which the offset from UTC is the
one by which local midnight of `dateStudied` is read (always so in a zone
without daylight saving) and lies within a day, the filter of due-today keeps
the row exactly when
the number of local calendar days from `dateStudied` to today is one of 1, 3,
7, 15, 30; the other cells of the row, the status among them, play no part; a
row studied 1 or 3 days ago is kept, a row studied 2 or 4 days ago is not. -/
theorem dueToday_iff (tz : TimeZone) (now : Nat) (row : Row) (s : String) (y m d : Int)
    (hcell : cell row 5 = some s) (hre : dateRegexTest s = true)
    (hsplit : splitNumbers s = some (y, m, d)) (hvalid : validCivil y m d) (hy : 100 ≤ y)
    (hzone : tz.offsetOfLocal (daysFromCivil y m d * msPerDay) = tz.offsetAt now)
    (hb : -msPerDay ≤ tz.offsetAt now ∧ tz.offsetAt now ≤ msPerDay) :
    (isDueToday tz now row = true ↔
        localDay tz now - daysFromCivil y m d = 1 ∨
        localDay tz now - daysFromCivil y m d = 3 ∨
        localDay tz now - daysFromCivil y m d = 7 ∨
        localDay tz now - daysFromCivil y m d = 15 ∨
        localDay tz now - daysFromCivil y m d = 30) ∧
      (∀ row2 : Row, cell row2 5 = some s →
        isDueToday tz now row2 = isDueToday tz now row) ∧
      (localDay tz now - daysFromCivil y m d = 1 → isDueToday tz now row = true) ∧
      (localDay tz now - daysFromCivil y m d = 2 → isDueToday tz now row = false) ∧
      (localDay tz now - daysFromCivil y m d = 3 → isDueToday tz now row = true) ∧
      (localDay tz now - daysFromCivil y m d = 4 → isDueToday tz now row = false) := by
  have hdiff := diffDays_calendar tz now s y m d hre hsplit hvalid hy hzone hb
  have hrow := isDueToday_of_diff tz now row s _ hcell hre hdiff
  refine ⟨?_, ?_, ?_, ?_, ?_, ?_⟩
  · rw [hrow, dueIntervals_contains]
  · intro row2 h2
    rw [hrow, isDueToday_of_diff tz now row2 s _ h2 hre hdiff]
  · intro h; rw [hrow, h]; decide
  · intro h; rw [hrow, h]; decide
  · intro h; rw [hrow, h]; decide
  · intro h; rw [hrow, h]; decide

/-- A row studied on 2024-01-07, three days before the clock reading, in New
York in winter; and a row studied on 2024-01-08, two days before. -/
theorem dueToday_iff_witness :
    (localDay newYork2024 1704898800000 - daysFromCivil 2024 1 7 = 3 ∧
      isDueToday newYork2024 1704898800000 ["Bio", "Cells", "Revised", "", "", "2024-01-07"]
        = true) ∧
    (localDay newYork2024 1704898800000 - daysFromCivil 2024 1 8 = 2 ∧
      isDueToday newYork2024 1704898800000 ["Bio", "Cells", "Revised", "", "", "2024-01-08"]
        = false) :=
  ⟨⟨by decide,
    (dueToday_iff newYork2024 1704898800000 ["Bio", "Cells", "Revised", "", "", "2024-01-07"]
      "2024-01-07" 2024 1 7 (by decide) (by decide) (by decide) (by decide) (by decide)
      (by decide) (by decide)).2.2.2.2.1 (by decide)⟩,
   ⟨by decide,
    (dueToday_iff newYork2024 1704898800000 ["Bio", "Cells", "Revised", "", "", "2024-01-08"]
      "2024-01-08" 2024 1 8 (by decide) (by decide) (by decide) (by decide) (by decide)
      (by decide) (by decide)).2.2.2.1 (by decide)⟩⟩

/-- Across a change of daylight saving a row studied one local calendar day
ago is reported overdue: New York, 2024-11-03 at 23:30, studied 2024-11-02.
And the date 0070-01-01 is read as 1970-01-01: on 1970-01-02 a "Not Revised"
row studied 693961 days ago is not reported.  The claim C6 fails on both rows. -/
theorem overdue_dst :
    (dateRegexTest "2024-11-02" = true ∧ splitNumbers "2024-11-02" = some (2024, 11, 2) ∧
        validCivil 2024 11 2 ∧
        localDay newYork2024 1730694600000 - daysFromCivil 2024 11 2 = 1 ∧
        isOverdue newYork2024 1730694600000
          ["Bio", "Cells", "Not Revised", "", "", "2024-11-02"] = true) ∧
      (dateRegexTest "0070-01-01" = true ∧ splitNumbers "0070-01-01" = some (70, 1, 1) ∧
        validCivil 70 1 1 ∧
        localDay utcZone 86400000 - daysFromCivil 70 1 1 = 693961 ∧
        isOverdue utcZone 86400000 ["Bio", "Cells", "Not Revised", "", "", "0070-01-01"]
          = false) := by
  decide

/-- Claim C6, amended. The filter of overdue never keeps a row whose status is
not exactly "Not Revised" (a "Revised" row among them), nor a row whose
`dateStudied` is absent, empty or fails the test.  For a row whose
`dateStudied` is a valid `YYYY-MM-DD` date of a year from 0100 on, and a clock
reading at which the offset from UTC is the one by which local midnight of
`dateStudied` is read (always so in a zone without daylight saving) and lies
within a day, it keeps the row exactly when the status is "Not Revised" and the number of local
calendar days from `dateStudied` to today exceeds some interval of the table,
which is the same as exceeding 1; so a "Not Revised" row studied 4 days ago is
kept and one studied 1 day ago is not. -/
theorem overdue_iff (tz : TimeZone) (now : Nat) (row : Row) :
    (cell row 2 ≠ some "Not Revised" → isOverdue tz now row = false) ∧
      (cell row 2 = some "Revised" → isOverdue tz now row = false) ∧
      ((row.length < 6 ∨ cell row 5 = none ∨ cell row 5 = some "" ∨
          ∃ s, cell row 5 = some s ∧ dateRegexTest s = false) →
        isOverdue tz now row = false) ∧
      (∀ diff : Int, (∃ interval ∈ dueIntervals, diff > interval) ↔ diff > 1) ∧
      (∀ (s : String) (y m d : Int), cell row 5 = some s → dateRegexTest s = true →
        splitNumbers s = some (y, m, d) → validCivil y m d → 100 ≤ y →
        tz.offsetOfLocal (daysFromCivil y m d * msPerDay) = tz.offsetAt now →
        (-msPerDay ≤ tz.offsetAt now ∧ tz.offsetAt now ≤ msPerDay) →
        (isOverdue tz now row = true ↔
          cell row 2 = some "Not Revised" ∧
            ∃ interval ∈ dueIntervals, localDay tz now - daysFromCivil y m d > interval) ∧
        (isOverdue tz now row = true ↔
          cell row 2 = some "Not Revised" ∧ localDay tz now - daysFromCivil y m d > 1) ∧
        (cell row 2 = some "Not Revised" → localDay tz now - daysFromCivil y m d = 4 →
          isOverdue tz now row = true) ∧
        (localDay tz now - daysFromCivil y m d = 1 → isOverdue tz now row = false)) := by
  have hany : ∀ diff : Int, (∃ interval ∈ dueIntervals, diff > interval) ↔ diff > 1 := by
    intro diff
    rw [← dueIntervals_any]
    simp
  have hother : cell row 2 ≠ some "Not Revised" → isOverdue tz now row = false := by
    intro h
    simp [isOverdue, h]
  refine ⟨hother, ?_, ?_, hany, ?_⟩
  · intro h
    apply hother
    rw [h]
    decide
  · intro h
    have h5 : cell row 5 = none ∨
        ∃ s, cell row 5 = some s ∧ (s = "" ∨ dateRegexTest s = false) := by
      rcases h with h | h | h | ⟨s, h, hs⟩
      · left
        simp only [cell]
        exact List.get?_eq_none.mpr (by omega)
      · exact Or.inl h
      · exact Or.inr ⟨_, h, Or.inl rfl⟩
      · exact Or.inr ⟨s, h, Or.inr hs⟩
    rcases h5 with h5 | ⟨s, h5, hs⟩
    · simp only [isOverdue, h5]
      split_ifs <;> rfl
    · simp only [isOverdue, h5, hs]
      split_ifs <;> simp
  · intro s y m d h5 hre hsplit hvalid hy hzone hb
    have hdiff := diffDays_calendar tz now s y m d hre hsplit hvalid hy hzone hb
    have hmain : isOverdue tz now row = true ↔
        cell row 2 = some "Not Revised" ∧ localDay tz now - daysFromCivil y m d > 1 := by
      by_cases hst : cell row 2 = some "Not Revised"
      · rw [isOverdue_of_diff tz now row s _ hst h5 hre hdiff, dueIntervals_any]
        simp [hst]
      · simp [hother hst, hst]
    refine ⟨?_, hmain, ?_, ?_⟩
    · rw [hmain, hany]
    · intro hst h
      rw [hmain]
      exact ⟨hst, by omega⟩
    · intro h
      cases hov : isOverdue tz now row with
      | false => rfl
      | true =>
        have := (hmain.mp hov).2
        omega

/-- The scenarios of C6 in New York in winter: studied 4 days ago, studied 1 day
ago, and revised. -/
theorem overdue_iff_witness :
    isOverdue newYork2024 1704898800000
        ["Math", "Algebra", "Not Revised", "", "", "2024-01-06"] = true ∧
      isOverdue newYork2024 1704898800000
        ["Bio", "Cells", "Not Revised", "", "", "2024-01-09"] = false ∧
      isOverdue newYork2024 1704898800000
        ["Math", "Algebra", "Revised", "", "", "2024-01-06"] = false :=
  ⟨((overdue_iff newYork2024 1704898800000 _).2.2.2.2 "2024-01-06" 2024 1 6 (by decide)
      (by decide) (by decide) (by decide) (by decide) (by decide) (by decide)).2.2.1
      (by decide) (by decide),
    ((overdue_iff newYork2024 1704898800000 _).2.2.2.2 "2024-01-09" 2024 1 9 (by decide)
      (by decide) (by decide) (by decide) (by decide) (by decide) (by decide)).2.2.2
      (by decide),
    (overdue_iff newYork2024 1704898800000 _).2.1 (by decide)⟩

/-- Claim C7. A row with fewer than six cells, with no `dateStudied`, with an
empty one or with one that fails the test `^\d{4}-\d{2}-\d{2}$` is left out by
the filter of due-today and by the filter of overdue, whatever its status and
the clock; both predicates return, nothing is thrown. -/
theorem invalid_date_excluded (tz : TimeZone) (now : Nat) (row : Row)
    (h : row.length < 6 ∨ cell row 5 = none ∨ cell row 5 = some "" ∨
      ∃ s, cell row 5 = some s ∧ dateRegexTest s = false) :
    isDueToday tz now row = false ∧ isOverdue tz now row = false := by
  have h5 : cell row 5 = none ∨ ∃ s, cell row 5 = some s ∧ (s = "" ∨ dateRegexTest s = false) := by
    rcases h with h | h | h | ⟨s, h, hs⟩
    · left
      simp only [cell]
      exact List.get?_eq_none.mpr (by omega)
    · exact Or.inl h
    · exact Or.inr ⟨_, h, Or.inl rfl⟩
    · exact Or.inr ⟨s, h, Or.inr hs⟩
  rcases h5 with h5 | ⟨s, h5, hs⟩
  · constructor
    · simp [isDueToday, h5]
    · simp only [isOverdue, h5]
      split_ifs <;> rfl
  · constructor
    · simp [isDueToday, h5, hs]
    · simp only [isOverdue, h5, hs]
      split_ifs <;> simp

/-- The scenario of C7: the date 13/01/2024, and a row of three cells. -/
theorem invalid_date_excluded_witness :
    dateRegexTest "13/01/2024" = false ∧
      (isDueToday utcZone 1704844800000 ["Math", "Algebra", "Not Revised", "", "", "13/01/2024"]
          = false ∧
        isOverdue utcZone 1704844800000 ["Math", "Algebra", "Not Revised", "", "", "13/01/2024"]
          = false) ∧
      (isDueToday utcZone 1704844800000 ["Math", "Algebra", "Not Revised"] = false ∧
        isOverdue utcZone 1704844800000 ["Math", "Algebra", "Not Revised"] = false) :=
  ⟨by decide,
    invalid_date_excluded utcZone 1704844800000 _
      (Or.inr (Or.inr (Or.inr ⟨"13/01/2024", by decide, by decide⟩))),
    invalid_date_excluded utcZone 1704844800000 _ (Or.inl (by decide))⟩

/-! ## Totality, the cells written, and the rows as fetched -/

/-- A count that is `NaN` or negative finds no gap. -/
theorem nextGap_none (rc : Option Int) (h : ¬ ∃ n : Int, 0 ≤ n ∧ rc = some n) :
    nextGap rc = none := by
  cases rc with
  | none => rfl
  | some n =>
    have hn : n < 0 := by
      by_contra hn
      exact h ⟨n, by omega, rfl⟩
    have e : (gaps.length : Int) - 1 = 4 := by decide
    obtain ⟨k, hk⟩ := Int.eq_negSucc_of_lt_zero (by omega : min n 4 < 0)
    simp only [nextGap, clampIndex, Option.map_some', e]
    rw [hk]
    rfl

/-- The update of a row marked "Revised" whose count finds no gap: `toISOString`
throws on the invalid `nextDate`. -/
theorem computeRevisionUpdate_throws (tz : TimeZone) (now : Nat) (row : Row)
    (h : nextGap (revisionCountOf row) = none) :
    computeRevisionUpdate tz now row "Revised" = none := by
  simp [computeRevisionUpdate, toISODateString, nextDueOf, h, setDate]

/-- A cell that is not a number, or a negative one, makes the route throw: the
claim C8 fails on these rows. -/
theorem markRevised_throws :
    computeRevisionUpdate utcZone 1704844800000
        ["Math", "Algebra", "Revised", "2024-01-02", "", "2024-01-01", "", "", "abc"]
        "Revised" = none ∧
      computeRevisionUpdate utcZone 1704844800000
        ["Math", "Algebra", "Revised", "2024-01-02", "", "2024-01-01", "", "", "-1"]
        "Revised" = none := by
  decide

/-- Claim C8, amended. The predicates of due-today and of overdue return a
boolean on every row and every clock reading.  For a clock reading such that
the dates up to 30 local days later are valid time values (in a zone with one
offset: a clock at least 30 days before the last time value), the computation of the update returns its
three values exactly when the new status is not "Revised" or the count of the
row is a non-negative integer (as it is for every row without a cell 8); with
"Revised" and a count that is negative or not a number it throws. -/
theorem scheduler_total (tz : TimeZone) (now : Nat) (row : Row) (newStatus : String)
    (hr : ∀ g : Nat, g ≤ 30 →
      -maxTime ≤ UTC tz (LocalTime tz now + (g : Int) * msPerDay) ∧
        UTC tz (LocalTime tz now + (g : Int) * msPerDay) ≤ maxTime) :
    ((∃ u, computeRevisionUpdate tz now row newStatus = some u) ↔
        (newStatus ≠ "Revised" ∨ ∃ n : Int, 0 ≤ n ∧ revisionCountOf row = some n)) ∧
      (row.length ≤ 8 → ∃ u, computeRevisionUpdate tz now row newStatus = some u) ∧
      (isDueToday tz now row = true ∨ isDueToday tz now row = false) ∧
      (isOverdue tz now row = true ∨ isOverdue tz now row = false) := by
  have hsucc : ∀ n : Int, 0 ≤ n → revisionCountOf row = some n →
      ∃ u, computeRevisionUpdate tz now row "Revised" = some u := by
    intro n hn hrc
    have hg := nextGap_gapFor n hn
    rw [← hrc] at hg
    obtain ⟨u, hu, -⟩ := computeRevisionUpdate_succeeds tz now row _ hg
      (hr _ (by rw [gapFor]; split_ifs <;> omega))
    exact ⟨u, hu⟩
  have hiff : (∃ u, computeRevisionUpdate tz now row newStatus = some u) ↔
      (newStatus ≠ "Revised" ∨ ∃ n : Int, 0 ≤ n ∧ revisionCountOf row = some n) := by
    by_cases hs : newStatus = "Revised"
    · subst hs
      constructor
      · intro ⟨u, hu⟩
        right
        by_contra hno
        rw [computeRevisionUpdate_throws tz now row (nextGap_none _ hno)] at hu
        exact Option.noConfusion hu
      · rintro (h | ⟨n, hn, hrc⟩)
        · exact absurd rfl h
        · exact hsucc n hn hrc
    · simp [computeRevisionUpdate, toISODateString, hs]
  refine ⟨hiff, ?_, ?_, ?_⟩
  · intro hlen
    rw [hiff]
    right
    have h8 : cell row 8 = none := by
      simp only [cell]
      exact List.get?_eq_none.mpr (by omega)
    have h8t : truthy (cell row 8) = false := by rw [h8]; rfl
    by_cases h3 : truthy (cell row 3) = true
    · exact ⟨1, by decide, by simp [revisionCountOf, h3, h8t]⟩
    · exact ⟨0, by decide, by simp [revisionCountOf, h3]⟩
  · cases isDueToday tz now row <;> simp
  · cases isOverdue tz now row <;> simp

/-- A row with the count 2 in its cell 8. -/
theorem scheduler_total_witness :
    ∃ u, computeRevisionUpdate utcZone 1704844800000
      ["Math", "Algebra", "Revised", "2024-01-02", "", "2024-01-01", "", "", "2"] "Revised"
        = some u :=
  (scheduler_total utcZone 1704844800000 _ "Revised"
    (fixedZone_later 0 1704844800000 (by decide))).1.mpr
    (Or.inr ⟨2, by decide, by decide⟩)

/-- The route writes nothing or the three cells of one row. -/
theorem updateStatus_shape (tz : TimeZone) (now : Nat) (allData : List Row) (rowIndex : Nat)
    (newStatus : String) (writes : List CellWrite)
    (h : updateStatus tz now allData rowIndex newStatus = some writes) :
    ∃ u row, allData.get? rowIndex = some row ∧
      computeRevisionUpdate tz now row newStatus = some u ∧
      writes = [ { column := "C", rowNumber := rowIndex + 2, value := u.status },
        { column := "D", rowNumber := rowIndex + 2, value := u.lastRevised },
        { column := "G", rowNumber := rowIndex + 2, value := u.nextDue } ] := by
  unfold updateStatus at h
  cases hrow : allData.get? rowIndex with
  | none => rw [hrow] at h; exact Option.noConfusion h
  | some row =>
    rw [hrow] at h
    dsimp only at h
    cases hu : computeRevisionUpdate tz now row newStatus with
    | none => rw [hu] at h; exact Option.noConfusion h
    | some u =>
      rw [hu] at h
      exact ⟨u, row, rfl, hu, (Option.some.inj h).symm⟩

/-- The gap of a row of at most six cells. -/
theorem nextGap_fetched (row : Row) (hlen : row.length ≤ 6) :
    nextGap (revisionCountOf row) = some (if truthy (cell row 3) = true then 3 else 1) := by
  have h8 : cell row 8 = none := by
    simp only [cell]
    exact List.get?_eq_none.mpr (by omega)
  have h8t : truthy (cell row 8) = false := by rw [h8]; rfl
  by_cases h3 : truthy (cell row 3) = true
  · simp only [revisionCountOf, h3, h8t, if_true]
    rfl
  · simp only [revisionCountOf, h3]
    rfl

/-- Claim C9. Whatever the row index `i` and the new status, whatever the route
writes lies in row `i + 2` and in one of the columns C, D, G; when it writes,
it writes exactly the three cells C, D and G of row `i + 2`, holding the
status, the last revised date and the next due date; and it does write when
`i` is the index of a fetched row, the rows have at most the six cells of the
range `A2:F`, and the dates up to 30 local days after the clock reading are
valid time values (in a zone with one offset: the clock is at least 30 days
before the last time value). -/
theorem updateStatus_cells (tz : TimeZone) (now : Nat) (allData : List Row) (i : Nat)
    (newStatus : String) :
    (∀ writes, updateStatus tz now allData i newStatus = some writes →
        (∀ w ∈ writes, w.rowNumber = i + 2 ∧ (w.column = "C" ∨ w.column = "D" ∨ w.column = "G")) ∧
        writes.map (fun w => (w.column, w.rowNumber)) = [("C", i + 2), ("D", i + 2), ("G", i + 2)]) ∧
      (i < allData.length → (∀ r ∈ allData, r.length ≤ 6) →
        (∀ g : Nat, g ≤ 30 →
          -maxTime ≤ UTC tz (LocalTime tz now + (g : Int) * msPerDay) ∧
            UTC tz (LocalTime tz now + (g : Int) * msPerDay) ≤ maxTime) →
        ∃ u : Update, updateStatus tz now allData i newStatus =
          some [ { column := "C", rowNumber := i + 2, value := u.status },
            { column := "D", rowNumber := i + 2, value := u.lastRevised },
            { column := "G", rowNumber := i + 2, value := u.nextDue } ] ∧
          u.status = newStatus) := by
  constructor
  · intro writes h
    obtain ⟨u, row, -, -, rfl⟩ := updateStatus_shape tz now allData i newStatus writes h
    simp
  · intro hi hlen hr
    obtain ⟨row, hrow⟩ : ∃ row, allData.get? i = some row :=
      ⟨allData.get ⟨i, hi⟩, List.get?_eq_get hi⟩
    have hmem : row ∈ allData := List.get?_mem hrow
    have hu : ∃ u, computeRevisionUpdate tz now row newStatus = some u ∧ u.status = newStatus := by
      by_cases hs : newStatus = "Revised"
      · subst hs
        exact computeRevisionUpdate_succeeds tz now row _
          (nextGap_fetched row (hlen row hmem)) (hr _ (by split_ifs <;> omega))
      · exact ⟨{ status := newStatus, lastRevised := "", nextDue := "" },
          by simp [computeRevisionUpdate, toISODateString, hs], rfl⟩
    obtain ⟨u, hu, hst⟩ := hu
    refine ⟨u, ?_, hst⟩
    unfold updateStatus
    rw [hrow]
    dsimp only
    rw [hu]
    rfl

/-- The second of two fetched rows, marked "Revised" on 2024-01-10. -/
theorem updateStatus_cells_witness :
    updateStatus utcZone 1704844800000
        [["Math", "Algebra", "Not Revised", "", "", "2024-01-06"],
          ["Bio", "Cells", "Revised", "2024-01-08", "", "2024-01-07"]] 1 "Revised" =
      some [ { column := "C", rowNumber := 3, value := "Revised" },
        { column := "D", rowNumber := 3, value := "2024-01-10" },
        { column := "G", rowNumber := 3, value := "2024-01-13" } ] ∧
    ∃ u : Update, updateStatus utcZone 1704844800000
        [["Math", "Algebra", "Not Revised", "", "", "2024-01-06"],
          ["Bio", "Cells", "Revised", "2024-01-08", "", "2024-01-07"]] 1 "Revised" =
      some [ { column := "C", rowNumber := 1 + 2, value := u.status },
        { column := "D", rowNumber := 1 + 2, value := u.lastRevised },
        { column := "G", rowNumber := 1 + 2, value := u.nextDue } ] ∧ u.status = "Revised" :=
  ⟨by decide, (updateStatus_cells utcZone 1704844800000 _ 1 "Revised").2 (by decide) (by decide)
    (fixedZone_later 0 1704844800000 (by decide))⟩

/-- Claim C10. On a row of at most six cells, the shape of the rows of the range
`A2:F`, the gap of a row marked "Revised" is 1 when `lastRevisedDate` is empty
or absent and 3 when it is not; it is never 7, 15 or 30, and the next due date
is 1 or 3 days after today when the new local time is read with the offset in
force now. -/
theorem fetched_row_gap (row : Row) (hlen : row.length ≤ 6) :
    ((cell row 3 = none ∨ cell row 3 = some "") → nextGap (revisionCountOf row) = some 1) ∧
      ((∃ s, cell row 3 = some s ∧ s ≠ "") → nextGap (revisionCountOf row) = some 3) ∧
      nextGap (revisionCountOf row) ≠ some 7 ∧ nextGap (revisionCountOf row) ≠ some 15 ∧
      nextGap (revisionCountOf row) ≠ some 30 ∧
      ∀ (tz : TimeZone) (now : Nat), (now : Int) + 3 * msPerDay ≤ maxTime →
        ∃ g : Nat, (g = 1 ∨ g = 3) ∧ nextGap (revisionCountOf row) = some g ∧
          (tz.offsetOfLocal (LocalTime tz now + (g : Int) * msPerDay) = tz.offsetAt now →
            computeRevisionUpdate tz now row "Revised" =
              some { status := "Revised", lastRevised := isoDate (Day now),
                     nextDue := isoDate (Day now + g) }) := by
  have hg := nextGap_fetched row hlen
  refine ⟨?_, ?_, ?_, ?_, ?_, ?_⟩
  · rintro (h | h) <;> simp [hg, h, truthy]
  · rintro ⟨s, h, hs⟩
    simp [hg, h, hs, truthy]
  · rw [hg]; split_ifs <;> decide
  · rw [hg]; split_ifs <;> decide
  · rw [hg]; split_ifs <;> decide
  · intro tz now hr
    refine ⟨_, ?_, hg, fun hzone => computeRevisionUpdate_revised tz now row _ hg hzone ?_⟩
    · split_ifs
      · exact Or.inr rfl
      · exact Or.inl rfl
    · simp only [msPerDay, maxTime] at hr ⊢
      split_ifs <;> omega

/-- A row never revised and a row revised before, as fetched. -/
theorem fetched_row_gap_witness :
    nextGap (revisionCountOf ["Math", "Algebra", "Not Revised", "", "", "2024-01-06"])
        = some 1 ∧
      nextGap (revisionCountOf ["Bio", "Cells", "Revised", "2024-01-08", "", "2024-01-07"])
        = some 3 :=
  ⟨(fetched_row_gap _ (by decide)).1 (Or.inr (by decide)),
    (fetched_row_gap _ (by decide)).2.1 ⟨"2024-01-08", by decide, by decide⟩⟩
end RevisionTracker
